import Mathlib

/-!
Verification of the IFDSConstAnalysis const-mutability problem (phasar).

The repository ships only the two header files
`IFDSConstAnalysis.h` and `ZeroFlowFact.h`: declarations plus their
documentation comments.  The member-function bodies are not under `src/`,
so every operation below is modelled from the specification (spec.md,
chiefly §4.6 "Const-Mutability Problem", §4.4 and §7), staying faithful to
its words and to the header documentation.
-/

/-- Modelled from the spec: the kinds of allocation site recognised by the
alias filter — stack memory (alloca) or heap memory obtained through
new, new[], malloc, calloc or realloc (spec §4.6 condition (2); the body
of IFDSConstAnalysis::getContextRelevantPointsToSet is not under src/). -/
inductive AllocKind where
  | alloca
  | cppNew
  | cppNewArray
  | malloc
  | calloc
  | realloc
deriving DecidableEq

/-- Modelled from the spec: an opaque program value (llvm::Value) identified
by `id`, carrying the attributes the alias filter inspects: the procedure
containing it when it is an instruction, its allocation-site kind when it
is one, whether it is a global variable, the procedure it is a formal
parameter of when it is one, and whether it is a return value of pointer
type.  Procedures are identified by numbers. -/
structure Val where
  id : Nat
  parentFn : Option Nat
  allocSite : Option AllocKind
  isGlobal : Bool
  formalOf : Option Nat
  isPtrRetVal : Bool
deriving DecidableEq

/-- Modelled from the spec: a data-flow fact is either the distinguished
Zero fact ("no interesting fact holds", spec §3) or a memory location. -/
inductive FlowFact where
  | zero
  | val (v : Val)
deriving DecidableEq

/-- Modelled from the spec: ZeroFlowFact is a singleton; getInstance
always hands out the one Zero fact (ZeroFlowFact.h declares only the
static accessor; its body is not under src/). -/
def ZeroFlowFact.getInstance : Unit → FlowFact := fun _ => FlowFact.zero

/-- A flow function maps one incoming fact to the set of outgoing facts
(spec §4.1), here a list of facts. -/
abbrev FlowFun := FlowFact → List FlowFact

/-- Modelled from the spec: the Identity flow function, output = {input}. -/
def identityFlow : FlowFun := fun d => [d]

/-- Modelled from the spec: the KillAll flow function, output = {} unless
the input is Zero, in which case output = {Zero} (spec §4.1). -/
def killAll : FlowFun := fun d => if d = FlowFact.zero then [FlowFact.zero] else []

/-- Modelled from the spec: a generating flow function: propagate the
input unchanged and additionally produce the given memory locations as
new facts (spec §4.6 store handling). -/
def genFlow (gen : List Val) : FlowFun := fun d => d :: gen.map FlowFact.val

/-- Modelled from the spec: applying a flow function to a set of incoming
facts is the union over the members (spec §4.1 composition). -/
def applyFlowFun (f : FlowFun) (facts : List FlowFact) : List FlowFact :=
  (facts.map f).flatten

/-- Modelled from the spec: does a value meet the context-relevant filter
for procedure context `M`?  It must be (1) an instruction within `M`, or
(2) an allocation site from any procedure, or (3) a global variable, or
(4) a formal parameter of `M`, or (5) a return value of pointer type
(spec §4.6 alias filtering). -/
def contextRelevant (M : Nat) (v : Val) : Bool :=
  decide (v.parentFn = some M) || v.allocSite.isSome || v.isGlobal ||
    decide (v.formalOf = some M) || v.isPtrRetVal

/-- Modelled from the spec: refine a raw points-to set to its
context-relevant subset (the body of
IFDSConstAnalysis::getContextRelevantPointsToSet is not under src/). -/
def getContextRelevantPointsToSet (S : List Val) (M : Nat) : List Val :=
  S.filter (contextRelevant M)

/-- Modelled from the spec: the problem state of one IFDSConstAnalysis
instance: the points-to oracle (external collaborator, spec §4.3), the
configured entry-point names, and the Initialized set of memory
locations (IFDSConstAnalysis.h lines 48-52).  The Initialized set is a
duplicate-free list mirroring a mathematical set. -/
structure IFDSConstAnalysis where
  ptg : Val → List Val
  EntryPoints : List String
  Initialized : List Val

/-- Modelled from the spec: the default entry-point list of the
constructor — the single conventional "main" entry (spec §6). -/
def defaultEntryPoints : List String := ["main"]

/-- Modelled from the spec: construction of the problem: the Initialized
set is empty at problem construction (spec §3). -/
def mkIFDSConstAnalysis (ptg : Val → List Val) (eps : List String) : IFDSConstAnalysis :=
  { ptg := ptg, EntryPoints := eps, Initialized := [] }

/-- Modelled from the spec: construction with the defaulted entry-point
argument. -/
def mkIFDSConstAnalysisDefault (ptg : Val → List Val) : IFDSConstAnalysis :=
  mkIFDSConstAnalysis ptg defaultEntryPoints

/-- Set-insertion into the duplicate-free Initialized list. -/
def insertVal (s : List Val) (v : Val) : List Val :=
  if v ∈ s then s else v :: s

/-- Modelled from the spec: isInitialized checks membership in the
Initialized set and carries no side effect; the returned state is the
receiver unchanged. -/
def isInitialized (a : IFDSConstAnalysis) (d : Val) : Bool × IFDSConstAnalysis :=
  (decide (d ∈ a.Initialized), a)

/-- Modelled from the spec: markAsInitialized adds the given memory
location to the Initialized set. -/
def markAsInitialized (a : IFDSConstAnalysis) (d : Val) : IFDSConstAnalysis :=
  { a with Initialized := insertVal a.Initialized d }

/-- Modelled from the spec: diagnostic listing of all initialized memory
locations; no state change. -/
def printInitMemoryLocations (a : IFDSConstAnalysis) : List Val × IFDSConstAnalysis :=
  (a.Initialized, a)

/-- Modelled from the spec: the number of initialized memory locations;
no state change. -/
def initMemoryLocationCount (a : IFDSConstAnalysis) : Nat × IFDSConstAnalysis :=
  (a.Initialized.length, a)

/-- Modelled from the spec: the bulk memory intrinsics that count as a
write access to their destination (IFDSConstAnalysis.h lines 84-89). -/
inductive MemIntrinsicKind where
  | memcpy
  | memmove
  | memset
deriving DecidableEq

/-- Modelled from the spec: the statement shapes the flow-function
factories distinguish: a store through a pointer operand (with a flag
marking virtual-dispatch-table updates), a call to a bulk memory
intrinsic with its destination operand, an ordinary call or invoke whose
callee is statically resolved or not, and any other instruction. -/
inductive Instr where
  | store (ptr : Val) (vtableUpdate : Bool)
  | memIntrinsic (k : MemIntrinsicKind) (dest : Val)
  | callInst (callee : Option Nat)
  | otherInst
deriving DecidableEq

/-- Modelled from the spec: the initialization check of store handling:
is the pointer operand, or any context-relevant alias of it, already
marked initialized (spec §4.6)? -/
def storeInitCheck (a : IFDSConstAnalysis) (M : Nat) (P : Val) : Bool :=
  decide (P ∈ a.Initialized) ||
    (getContextRelevantPointsToSet (a.ptg P) M).any (fun v => decide (v ∈ a.Initialized))

/-- Modelled from the spec: the shared store logic (§4.6): if the pointer
operand `P` or a context-relevant alias is already initialized, generate
`P` and every context-relevant alias as new output facts in addition to
propagating the input unchanged; otherwise mark `P` as initialized and
propagate the input unchanged.  Returns the updated state and the flow
function. -/
def processStore (a : IFDSConstAnalysis) (M : Nat) (P : Val) :
    IFDSConstAnalysis × FlowFun :=
  if storeInitCheck a M P then
    (a, genFlow (P :: getContextRelevantPointsToSet (a.ptg P) M))
  else
    (markAsInitialized a P, identityFlow)

/-- Modelled from the spec: the normal flow function (the body of
IFDSConstAnalysis::getNormalFlowFunction is not under src/): stores are
handled by `processStore`, except that virtual-dispatch-table updates are
ignored; every other instruction is identity.  `M` is the procedure
containing the statement. -/
def getNormalFlowFunction (a : IFDSConstAnalysis) (M : Nat) (curr : Instr) :
    IFDSConstAnalysis × FlowFun :=
  match curr with
  | Instr.store P vt => if vt then (a, identityFlow) else processStore a M P
  | _ => (a, identityFlow)

/-- Modelled from the spec: actual-to-formal parameter mapping for a
resolved call: Zero propagates unconditionally; a location fact maps to
the formal parameters whose corresponding actual argument is that
location (spec §4.6 call/return parameter mapping). -/
def mapActualsToFormals (actuals formals : List Val) : FlowFun :=
  fun d =>
    match d with
    | FlowFact.zero => [FlowFact.zero]
    | FlowFact.val v =>
      ((actuals.zip formals).filter (fun p => decide (p.1 = v))).map
        (fun p => FlowFact.val p.2)

/-- Modelled from the spec: the call flow function (the body of
IFDSConstAnalysis::getCallFlowFunction is not under src/): bulk memory
intrinsics kill all flow-through facts at the call; an unresolved callee
(`none`) is the conservative KillAll edge (spec §7); otherwise actuals
are mapped into formals. -/
def getCallFlowFunction (callStmt : Instr) (destMthd : Option Nat)
    (actuals formals : List Val) : FlowFun :=
  match callStmt with
  | Instr.memIntrinsic _ _ => killAll
  | _ =>
    match destMthd with
    | none => killAll
    | some _ => mapActualsToFormals actuals formals

/-- Modelled from the spec: the call-to-return flow function (the body of
IFDSConstAnalysis::getCallToRetFlowFunction is not under src/): a bulk
memory intrinsic is handled exactly like a store to its destination
operand; every ordinary call passes all facts through unchanged. -/
def getCallToRetFlowFunction (a : IFDSConstAnalysis) (M : Nat) (callSite : Instr) :
    IFDSConstAnalysis × FlowFun :=
  match callSite with
  | Instr.memIntrinsic _ dest => processStore a M dest
  | _ => (a, identityFlow)

/-- Modelled from the spec: the summary flow function is unused — always
"no function" (IFDSConstAnalysis.h lines 136-140). -/
def getSummaryFlowFunction (callStmt : Instr) (destMthd : Option Nat) :
    Option FlowFun :=
  none

/-- Modelled from the spec: initialSeeds maps the entry statement of each
configured entry-point procedure to the singleton set containing the Zero
fact (spec §4.4); `entryStmtOf` is the ICFG collaborator's lookup from a
procedure name to its entry statement. -/
def initialSeeds (entryStmtOf : String → Option Nat) (a : IFDSConstAnalysis) :
    List (Nat × List FlowFact) :=
  a.EntryPoints.filterMap fun nm =>
    (entryStmtOf nm).map fun s => (s, [FlowFact.zero])

/-- Modelled from the spec: the analysis' zero value. -/
def createZeroValue (a : IFDSConstAnalysis) : FlowFact := FlowFact.zero

/-- Modelled from the spec: the zero-value test. -/
def isZeroValue (a : IFDSConstAnalysis) (d : FlowFact) : Bool :=
  decide (d = FlowFact.zero)

/-! ### Helper lemmas -/

theorem mem_insertVal (s : List Val) (v x : Val) :
    x ∈ insertVal s v ↔ x = v ∨ x ∈ s := by
  unfold insertVal
  by_cases h : v ∈ s
  · simp only [if_pos h]
    constructor
    · exact fun hx => Or.inr hx
    · rintro (rfl | hx)
      · exact h
      · exact hx
  · simp only [if_neg h, List.mem_cons]

theorem subset_insertVal (s : List Val) (v : Val) : s ⊆ insertVal s v := by
  intro x hx
  exact (mem_insertVal s v x).mpr (Or.inr hx)

theorem insertVal_nodup (s : List Val) (v : Val) (h : s.Nodup) :
    (insertVal s v).Nodup := by
  unfold insertVal
  by_cases hv : v ∈ s
  · simpa [if_pos hv] using h
  · simpa [if_neg hv, List.nodup_cons] using ⟨hv, h⟩

theorem insertVal_toFinset (s : List Val) (v : Val) :
    (insertVal s v).toFinset = insert v s.toFinset := by
  unfold insertVal
  by_cases hv : v ∈ s
  · rw [if_pos hv]
    have : v ∈ s.toFinset := List.mem_toFinset.mpr hv
    exact (Finset.insert_eq_self.mpr this).symm
  · rw [if_neg hv, List.toFinset_cons]

theorem foldl_markAsInitialized_Initialized (ds : List Val) :
    ∀ a : IFDSConstAnalysis,
      (ds.foldl markAsInitialized a).Initialized = ds.foldl insertVal a.Initialized := by
  induction ds with
  | nil => intro a; rfl
  | cons d ds ih =>
    intro a
    simp only [List.foldl_cons]
    exact ih (markAsInitialized a d)

theorem foldl_insertVal_nodup (ds : List Val) :
    ∀ acc : List Val, acc.Nodup → (ds.foldl insertVal acc).Nodup := by
  induction ds with
  | nil => intro acc h; exact h
  | cons d ds ih =>
    intro acc h
    exact ih (insertVal acc d) (insertVal_nodup acc d h)

theorem foldl_insertVal_toFinset (ds : List Val) :
    ∀ acc : List Val,
      (ds.foldl insertVal acc).toFinset = acc.toFinset ∪ ds.toFinset := by
  induction ds with
  | nil => intro acc; simp
  | cons d ds ih =>
    intro acc
    simp only [List.foldl_cons, List.toFinset_cons]
    rw [ih (insertVal acc d), insertVal_toFinset, Finset.insert_union,
      Finset.union_insert]

/-! ### Concrete values used by the witnesses -/

def v0 : Val :=
  { id := 0, parentFn := none, allocSite := some AllocKind.alloca,
    isGlobal := false, formalOf := none, isPtrRetVal := false }

def ptg0 : Val → List Val := fun _ => []

def a0 : IFDSConstAnalysis := mkIFDSConstAnalysis ptg0 defaultEntryPoints

/-! ### Claims -/

/-- Claim C3: getContextRelevantPointsToSet returns exactly the subset of
the given points-to set whose elements are (1) instructions within the
context procedure, or (2) allocation sites for stack (alloca) or heap
(new, new[], malloc, calloc, realloc) memory from any procedure, or (3)
global variables, or (4) formal parameters of the context procedure, or
(5) pointer-typed return values; all other elements are excluded. -/
theorem C3_context_relevant_filter (S : List Val) (M : Nat) (v : Val) :
    v ∈ getContextRelevantPointsToSet S M ↔
      v ∈ S ∧ (v.parentFn = some M ∨ (∃ k : AllocKind, v.allocSite = some k) ∨
        v.isGlobal = true ∨ v.formalOf = some M ∨ v.isPtrRetVal = true) := by
  unfold getContextRelevantPointsToSet contextRelevant
  rw [List.mem_filter]
  constructor
  · rintro ⟨hS, hrel⟩
    refine ⟨hS, ?_⟩
    simp only [Bool.or_eq_true, decide_eq_true_eq, Option.isSome_iff_exists] at hrel
    tauto
  · rintro ⟨hS, hrel⟩
    refine ⟨hS, ?_⟩
    simp only [Bool.or_eq_true, decide_eq_true_eq, Option.isSome_iff_exists]
    tauto

/-- Claim C4: initialSeeds associates the entry statement of each
configured entry-point procedure with exactly the singleton set
containing the Zero fact and seeds no other statement; the default
entry-point list of the constructor is the single name "main". -/
theorem C4_initial_seeds (entryStmtOf : String → Option Nat)
    (a : IFDSConstAnalysis) (s : Nat) (fs : List FlowFact) :
    ((s, fs) ∈ initialSeeds entryStmtOf a ↔
      fs = [FlowFact.zero] ∧ ∃ nm, nm ∈ a.EntryPoints ∧ entryStmtOf nm = some s) ∧
    defaultEntryPoints = ["main"] ∧
    (∀ ptg, (mkIFDSConstAnalysisDefault ptg).EntryPoints = ["main"]) := by
  refine ⟨?_, rfl, fun ptg => rfl⟩
  unfold initialSeeds
  simp only [List.mem_filterMap, Option.map_eq_some', Prod.mk.injEq]
  constructor
  · rintro ⟨nm, hnm, st, hst, rfl, rfl⟩
    exact ⟨rfl, nm, hnm, hst⟩
  · rintro ⟨rfl, nm, hnm, hst⟩
    exact ⟨nm, hnm, s, hst, rfl, rfl⟩

/-- Claim C5: for a call whose callee cannot be statically resolved, the
call flow function is the Zero-only KillAll function: any input fact
yields the empty set unless the input is the Zero fact, which yields the
singleton containing Zero. -/
theorem C5_unresolved_callee_killall (callStmt : Instr) (actuals formals : List Val) :
    getCallFlowFunction callStmt none actuals formals = killAll ∧
    (∀ d, killAll d = if d = FlowFact.zero then [FlowFact.zero] else []) := by
  refine ⟨?_, fun d => rfl⟩
  cases callStmt <;> rfl

/-- Claim C7: for a store that is a virtual-dispatch-table update, the
normal flow function generates no new fact (it is the identity flow
function) and the analysis state is unchanged, regardless of the
location's initialization state. -/
theorem C7_vtable_store_ignored (a : IFDSConstAnalysis) (M : Nat) (P : Val) :
    getNormalFlowFunction a M (Instr.store P true) = (a, identityFlow) ∧
    (∀ d, identityFlow d = [d]) :=
  ⟨rfl, fun d => rfl⟩

/-- Claim C8: the auxiliary queries isInitialized,
printInitMemoryLocations and initMemoryLocationCount leave the problem
state unchanged, and markAsInitialized modifies only the Initialized set,
leaving the points-to oracle and the entry points untouched. -/
theorem C8_auxiliary_frame :
    (∀ a d, (isInitialized a d).2 = a) ∧
    (∀ a, (printInitMemoryLocations a).2 = a) ∧
    (∀ a, (initMemoryLocationCount a).2 = a) ∧
    (∀ a d, (markAsInitialized a d).ptg = a.ptg ∧
      (markAsInitialized a d).EntryPoints = a.EntryPoints) :=
  ⟨fun a d => rfl, fun a => rfl, fun a => rfl, fun a d => ⟨rfl, rfl⟩⟩

/-- Claim C10: ZeroFlowFact.getInstance returns the same fact on every
call; isZeroValue holds of createZeroValue's result; and isZeroValue is
false on every fact distinct from the zero value. -/
theorem C10_zero_singleton :
    (∀ u u' : Unit, ZeroFlowFact.getInstance u = ZeroFlowFact.getInstance u') ∧
    (∀ a, isZeroValue a (createZeroValue a) = true) ∧
    (∀ a d, d ≠ createZeroValue a → isZeroValue a d = false) := by
  refine ⟨fun u u' => rfl, fun a => rfl, fun a d hd => ?_⟩
  unfold isZeroValue createZeroValue at *
  exact decide_eq_false hd

theorem C10_zero_singleton_witness :
    FlowFact.val v0 ≠ createZeroValue a0 ∧ isZeroValue a0 (FlowFact.val v0) = false :=
  ⟨by decide, C10_zero_singleton.2.2 a0 (FlowFact.val v0) (by decide)⟩

theorem processStore_mono (a : IFDSConstAnalysis) (M : Nat) (P : Val) :
    a.Initialized ⊆ (processStore a M P).1.Initialized := by
  unfold processStore
  cases h : storeInitCheck a M P
  · simp only [Bool.false_eq_true, if_false]
    exact subset_insertVal _ _
  · simp only [if_true]
    exact fun x hx => hx

/-- Claim C1: for a store through pointer operand `P` (not a vtable
update): when `P` or a context-relevant alias of `P` is already marked
initialized, the normal flow function leaves the state unchanged and maps
every input fact to itself plus `P` and every context-relevant alias of
`P` as generated facts; otherwise it marks `P` as initialized and is the
identity.  Consequently, starting uninitialized with fact set {Zero},
after the first of two consecutive stores to `P` the fact for `P` is
absent, and after the second it is present. -/
theorem C1_store_flow_and_second_write (a : IFDSConstAnalysis) (M : Nat) (P : Val)
    (h : storeInitCheck a M P = false) :
    (∀ (b : IFDSConstAnalysis) (Q : Val), storeInitCheck b M Q = true →
        (getNormalFlowFunction b M (Instr.store Q false)).1 = b ∧
        ∀ d, (getNormalFlowFunction b M (Instr.store Q false)).2 d =
          d :: (Q :: getContextRelevantPointsToSet (b.ptg Q) M).map FlowFact.val) ∧
    (∀ (b : IFDSConstAnalysis) (Q : Val), storeInitCheck b M Q = false →
        (getNormalFlowFunction b M (Instr.store Q false)).1 = markAsInitialized b Q ∧
        ∀ d, (getNormalFlowFunction b M (Instr.store Q false)).2 d = [d]) ∧
    (∀ (b : IFDSConstAnalysis) (Q : Val), storeInitCheck b M Q = true ↔
        Q ∈ b.Initialized ∨
          ∃ v, v ∈ getContextRelevantPointsToSet (b.ptg Q) M ∧ v ∈ b.Initialized) ∧
    FlowFact.val P ∉
      applyFlowFun (getNormalFlowFunction a M (Instr.store P false)).2 [FlowFact.zero] ∧
    FlowFact.val P ∈
      applyFlowFun
        (getNormalFlowFunction (getNormalFlowFunction a M (Instr.store P false)).1 M
          (Instr.store P false)).2
        (applyFlowFun (getNormalFlowFunction a M (Instr.store P false)).2 [FlowFact.zero]) := by
  have hgen : ∀ (b : IFDSConstAnalysis) (Q : Val), storeInitCheck b M Q = true →
      getNormalFlowFunction b M (Instr.store Q false) =
        (b, genFlow (Q :: getContextRelevantPointsToSet (b.ptg Q) M)) := by
    intro b Q hb
    simp [getNormalFlowFunction, processStore, hb]
  have hkill : ∀ (b : IFDSConstAnalysis) (Q : Val), storeInitCheck b M Q = false →
      getNormalFlowFunction b M (Instr.store Q false) =
        (markAsInitialized b Q, identityFlow) := by
    intro b Q hb
    simp [getNormalFlowFunction, processStore, hb]
  refine ⟨?_, ?_, ?_, ?_, ?_⟩
  · intro b Q hb
    rw [hgen b Q hb]
    exact ⟨rfl, fun d => rfl⟩
  · intro b Q hb
    rw [hkill b Q hb]
    exact ⟨rfl, fun d => rfl⟩
  · intro b Q
    unfold storeInitCheck
    simp [List.any_eq_true]
  · rw [hkill a P h]
    simp [applyFlowFun, identityFlow]
  · rw [hkill a P h]
    have h2 : storeInitCheck (markAsInitialized a P) M P = true := by
      have hP : P ∈ (markAsInitialized a P).Initialized :=
        (mem_insertVal a.Initialized P P).mpr (Or.inl rfl)
      unfold storeInitCheck
      simp [hP]
    rw [hgen _ P h2]
    simp [applyFlowFun, identityFlow, genFlow]

theorem C1_store_flow_and_second_write_witness :
    storeInitCheck a0 0 v0 = false ∧
    FlowFact.val v0 ∈
      applyFlowFun
        (getNormalFlowFunction (getNormalFlowFunction a0 0 (Instr.store v0 false)).1 0
          (Instr.store v0 false)).2
        (applyFlowFun (getNormalFlowFunction a0 0 (Instr.store v0 false)).2 [FlowFact.zero]) :=
  ⟨by decide, (C1_store_flow_and_second_write a0 0 v0 (by decide)).2.2.2.2⟩

/-- Claim C2: a call to a bulk memory intrinsic (memcpy, memmove, memset)
is KillAll at the call flow function — every non-Zero fact is killed and
Zero alone survives — and the call-to-return flow function handles it
exactly as the normal flow function handles an ordinary store to its
destination operand (same initialized-check-and-generate logic); an
ordinary call's call-to-return flow function is identity. -/
theorem C2_memory_intrinsic_handling :
    (∀ (k : MemIntrinsicKind) (dest : Val) (destMthd : Option Nat)
        (actuals formals : List Val),
        getCallFlowFunction (Instr.memIntrinsic k dest) destMthd actuals formals = killAll) ∧
    (∀ d, killAll d = if d = FlowFact.zero then [FlowFact.zero] else []) ∧
    (∀ (a : IFDSConstAnalysis) (M : Nat) (k : MemIntrinsicKind) (dest : Val),
        getCallToRetFlowFunction a M (Instr.memIntrinsic k dest) =
          getNormalFlowFunction a M (Instr.store dest false)) ∧
    (∀ (a : IFDSConstAnalysis) (M : Nat) (callee : Option Nat),
        getCallToRetFlowFunction a M (Instr.callInst callee) = (a, identityFlow)) :=
  ⟨fun k dest destMthd actuals formals => rfl, fun d => rfl,
    fun a M k dest => rfl, fun a M callee => rfl⟩

/-- Claim C6: the Initialized set is empty right after construction and
grows monotonically: the normal and call-to-return flow-function
factories and markAsInitialized only ever extend it, and the auxiliary
queries leave it unchanged — a location once initialized stays
initialized. -/
theorem C6_initialized_monotone :
    (∀ (ptg : Val → List Val) (eps : List String),
        (mkIFDSConstAnalysis ptg eps).Initialized = []) ∧
    (∀ (a : IFDSConstAnalysis) (M : Nat) (curr : Instr),
        a.Initialized ⊆ (getNormalFlowFunction a M curr).1.Initialized) ∧
    (∀ (a : IFDSConstAnalysis) (M : Nat) (cs : Instr),
        a.Initialized ⊆ (getCallToRetFlowFunction a M cs).1.Initialized) ∧
    (∀ (a : IFDSConstAnalysis) (d : Val),
        a.Initialized ⊆ (markAsInitialized a d).Initialized) ∧
    (∀ (a : IFDSConstAnalysis) (d : Val),
        (isInitialized a d).2.Initialized = a.Initialized) ∧
    (∀ a : IFDSConstAnalysis, (printInitMemoryLocations a).2.Initialized = a.Initialized) ∧
    (∀ a : IFDSConstAnalysis, (initMemoryLocationCount a).2.Initialized = a.Initialized) := by
  refine ⟨fun ptg eps => rfl, ?_, ?_, ?_, fun a d => rfl, fun a => rfl, fun a => rfl⟩
  · intro a M curr
    cases curr with
    | store P vt =>
      cases vt
      · exact processStore_mono a M P
      · exact fun x hx => hx
    | memIntrinsic k dest => exact fun x hx => hx
    | callInst c => exact fun x hx => hx
    | otherInst => exact fun x hx => hx
  · intro a M cs
    cases cs with
    | memIntrinsic k dest => exact processStore_mono a M dest
    | store P vt => exact fun x hx => hx
    | callInst c => exact fun x hx => hx
    | otherInst => exact fun x hx => hx
  · intro a d
    exact subset_insertVal _ _

/-- Claim C9: after markAsInitialized d, isInitialized d holds; marking
an already-initialized location is idempotent (state and count are
unchanged); and initMemoryLocationCount equals the number of distinct
locations marked so far. -/
theorem C9_mark_idempotent_count :
    (∀ (a : IFDSConstAnalysis) (d : Val),
        (isInitialized (markAsInitialized a d) d).1 = true) ∧
    (∀ (a : IFDSConstAnalysis) (d : Val), (isInitialized a d).1 = true →
        markAsInitialized a d = a ∧
        (initMemoryLocationCount (markAsInitialized a d)).1 =
          (initMemoryLocationCount a).1) ∧
    (∀ (ptg : Val → List Val) (eps : List String) (ds : List Val),
        (initMemoryLocationCount
            (ds.foldl markAsInitialized (mkIFDSConstAnalysis ptg eps))).1 =
          ds.toFinset.card) := by
  refine ⟨?_, ?_, ?_⟩
  · intro a d
    exact decide_eq_true ((mem_insertVal a.Initialized d d).mpr (Or.inl rfl))
  · intro a d hd
    have hmem : d ∈ a.Initialized := of_decide_eq_true hd
    have hmark : markAsInitialized a d = a := by
      unfold markAsInitialized insertVal
      rw [if_pos hmem]
    exact ⟨hmark, by rw [hmark]⟩
  · intro ptg eps ds
    have h1 : (ds.foldl markAsInitialized (mkIFDSConstAnalysis ptg eps)).Initialized =
        ds.foldl insertVal [] := foldl_markAsInitialized_Initialized ds _
    have hnd : (ds.foldl insertVal ([] : List Val)).Nodup :=
      foldl_insertVal_nodup ds [] List.nodup_nil
    have hts : (ds.foldl insertVal ([] : List Val)).toFinset = ds.toFinset := by
      rw [foldl_insertVal_toFinset ds []]
      simp
    calc (initMemoryLocationCount
            (ds.foldl markAsInitialized (mkIFDSConstAnalysis ptg eps))).1
        = (ds.foldl insertVal ([] : List Val)).length := by
          simp only [initMemoryLocationCount, h1]
      _ = (ds.foldl insertVal ([] : List Val)).toFinset.card :=
          (List.toFinset_card_of_nodup hnd).symm
      _ = ds.toFinset.card := by rw [hts]

theorem C9_mark_idempotent_count_witness :
    (isInitialized (markAsInitialized a0 v0) v0).1 = true ∧
    markAsInitialized (markAsInitialized a0 v0) v0 = markAsInitialized a0 v0 :=
  ⟨by decide, (C9_mark_idempotent_count.2.1 (markAsInitialized a0 v0) v0 (by decide)).1⟩
